import Mathlib

/-!
Verification of `archetypal/idfclass.py`: fingerprinting (`hash_model`),
the dependency-tracked attribute graph of class `IDF`, the version-migration
engine (`_check_version`, `_execute_transitions`, `idf_version_updater`),
the subprocess failure path (`_run_exec`) and the HTML summary-report reader
(`summary_reports_to_dataframes`), as a shallow embedding in Lean.
-/

set_option maxRecDepth 4000

namespace Archetypal

/-! ## Python literal values and their `str()`/`repr()` serialization

`hash_model` serializes its keyword arguments with `dict.__str__` /
`OrderedDict.__str__`, which renders each item as `'key': repr(value)`
(resp. `('key', repr(value))`).  We model the literals that occur as run
arguments: booleans, integers and strings. -/

inductive PyLit where
  | pybool (b : Bool)
  | pyint (n : Int)
  | pystr (s : String)
deriving DecidableEq, Repr

/-- Python `repr` of a literal: `True`/`False`, decimal integers,
single-quoted strings. -/
def PyLit.pyRepr : PyLit → String
  | .pybool true => "True"
  | .pybool false => "False"
  | .pyint n => toString n
  | .pystr s => "\x27" ++ s ++ "\x27"

/-- `str()` of a plain Python `dict` of keyword arguments:
`\x7b'k': v, ...\x7d` (and `\x7b\x7d` when empty). -/
def dictStr (kw : List (String × PyLit)) : String :=
  "\x7b" ++ String.intercalate (", ") (kw.map (fun p => "\x27" ++ p.1 ++ "\x27: " ++ p.2.pyRepr)) ++ "\x7d"

/-- `str()` of a `collections.OrderedDict`:
`OrderedDict()` when empty, else `OrderedDict([('k', v), ...])`. -/
def odictStr (kw : List (String × PyLit)) : String :=
  if kw.isEmpty then "OrderedDict()"
  else
    "OrderedDict([" ++
      String.intercalate (", ")
        (kw.map (fun p => "(\x27" ++ p.1 ++ "\x27, " ++ p.2.pyRepr ++ ")")) ++ "])"

/-! ## MD5 (`hashlib.md5`)

`hash_model` feeds the model bytes and the serialized kwargs into one
incremental `hashlib.md5` hasher.  We implement MD5 (RFC 1321) over byte
lists so that digests of concrete inputs can be computed by the kernel. -/

/-- 32-bit left rotation. -/
def rotl32 (x n : Nat) : Nat :=
  (((x <<< n) % 4294967296) ||| (x >>> (32 - n))) % 4294967296

/-- The 64 MD5 sine-derived constants `K[i]`. -/
def md5K : List Nat :=
  [0xd76aa478, 0xe8c7b756, 0x242070db, 0xc1bdceee,
   0xf57c0faf, 0x4787c62a, 0xa8304613, 0xfd469501,
   0x698098d8, 0x8b44f7af, 0xffff5bb1, 0x895cd7be,
   0x6b901122, 0xfd987193, 0xa679438e, 0x49b40821,
   0xf61e2562, 0xc040b340, 0x265e5a51, 0xe9b6c7aa,
   0xd62f105d, 0x02441453, 0xd8a1e681, 0xe7d3fbc8,
   0x21e1cde6, 0xc33707d6, 0xf4d50d87, 0x455a14ed,
   0xa9e3e905, 0xfcefa3f8, 0x676f02d9, 0x8d2a4c8a,
   0xfffa3942, 0x8771f681, 0x6d9d6122, 0xfde5380c,
   0xa4beea44, 0x4bdecfa9, 0xf6bb4b60, 0xbebfbc70,
   0x289b7ec6, 0xeaa127fa, 0xd4ef3085, 0x04881d05,
   0xd9d4d039, 0xe6db99e5, 0x1fa27cf8, 0xc4ac5665,
   0xf4292244, 0x432aff97, 0xab9423a7, 0xfc93a039,
   0x655b59c3, 0x8f0ccc92, 0xffeff47d, 0x85845dd1,
   0x6fa87e4f, 0xfe2ce6e0, 0xa3014314, 0x4e0811a1,
   0xf7537e82, 0xbd3af235, 0x2ad7d2bb, 0xeb86d391]

/-- The 64 MD5 per-round shift amounts `s[i]`. -/
def md5S : List Nat :=
  [7, 12, 17, 22, 7, 12, 17, 22, 7, 12, 17, 22, 7, 12, 17, 22,
   5, 9, 14, 20, 5, 9, 14, 20, 5, 9, 14, 20, 5, 9, 14, 20,
   4, 11, 16, 23, 4, 11, 16, 23, 4, 11, 16, 23, 4, 11, 16, 23,
   6, 10, 15, 21, 6, 10, 15, 21, 6, 10, 15, 21, 6, 10, 15, 21]

/-- The MD5 nonlinear function for round `i` applied to registers `b c d`. -/
def md5F (i b c d : Nat) : Nat :=
  if i < 16 then (b &&& c) ||| ((b ^^^ 0xffffffff) &&& d)
  else if i < 32 then (d &&& b) ||| ((d ^^^ 0xffffffff) &&& c)
  else if i < 48 then b ^^^ c ^^^ d
  else c ^^^ (b ||| (d ^^^ 0xffffffff))

/-- The MD5 message-word index for round `i`. -/
def md5G (i : Nat) : Nat :=
  if i < 16 then i
  else if i < 32 then (5 * i + 1) % 16
  else if i < 48 then (3 * i + 5) % 16
  else (7 * i) % 16

/-- One MD5 round: update of the register quadruple. -/
def md5Step (M : List Nat) (st : Nat × Nat × Nat × Nat) (i : Nat) :
    Nat × Nat × Nat × Nat :=
  match st with
  | (a, b, c, d) =>
    let tmp := (a + md5F i b c d + md5K.getD i 0 + M.getD (md5G i) 0) % 4294967296
    (d, (b + rotl32 tmp (md5S.getD i 0)) % 4294967296, b, c)

/-- Process one 16-word block against the running state. -/
def md5Block (st : Nat × Nat × Nat × Nat) (M : List Nat) :
    Nat × Nat × Nat × Nat :=
  match st, (List.range 64).foldl (md5Step M) st with
  | (a0, b0, c0, d0), (a, b, c, d) =>
    ((a0 + a) % 4294967296, (b0 + b) % 4294967296,
     (c0 + c) % 4294967296, (d0 + d) % 4294967296)

/-- Little-endian 32-bit word from four bytes. -/
def leWord (b0 b1 b2 b3 : Nat) : Nat :=
  b0 + 256 * b1 + 65536 * b2 + 16777216 * b3

/-- Split a byte list into little-endian 32-bit words. -/
def toWords : List Nat → List Nat
  | b0 :: b1 :: b2 :: b3 :: rest => leWord b0 b1 b2 b3 :: toWords rest
  | _ => []

/-- The 8-byte little-endian encoding of the bit length. -/
def md5LenBytes (len : Nat) : List Nat :=
  let bits := (8 * len) % 18446744073709551616
  [bits % 256, (bits >>> 8) % 256, (bits >>> 16) % 256, (bits >>> 24) % 256,
   (bits >>> 32) % 256, (bits >>> 40) % 256, (bits >>> 48) % 256,
   (bits >>> 56) % 256]

/-- MD5 padding: `0x80`, zeros to 56 mod 64, then the bit length. -/
def md5Pad (msg : List Nat) : List Nat :=
  let r := msg.length % 64
  let zeros := if r < 56 then 55 - r else 119 - r
  msg ++ [128] ++ List.replicate zeros 0 ++ md5LenBytes msg.length

/-- Chunk a byte list into 64-byte blocks (fuel-based structural recursion;
the fuel `l.length` always suffices since every step consumes at least one
byte). -/
def md5BlocksAux : Nat → List Nat → List (List Nat)
  | 0, _ => []
  | _ + 1, [] => []
  | n + 1, b :: rest => ((b :: rest).take 64) :: md5BlocksAux n ((b :: rest).drop 64)

/-- Chunk a byte list into 64-byte blocks. -/
def md5Blocks (l : List Nat) : List (List Nat) := md5BlocksAux l.length l

/-- MD5 initial register values. -/
def md5Init : Nat × Nat × Nat × Nat :=
  (0x67452301, 0xefcdab89, 0x98badcfe, 0x10325476)

/-- Little-endian bytes of one 32-bit register. -/
def wordLE (w : Nat) : List Nat :=
  [w % 256, (w >>> 8) % 256, (w >>> 16) % 256, (w >>> 24) % 256]

/-- The 16-byte MD5 digest of a byte list. -/
def md5Digest (msg : List Nat) : List Nat :=
  match (md5Blocks (md5Pad msg)).foldl (fun st blk => md5Block st (toWords blk)) md5Init with
  | (a, b, c, d) => wordLE a ++ wordLE b ++ wordLE c ++ wordLE d

/-- Lowercase hexadecimal digit. -/
def hexDigit (n : Nat) : Char :=
  if n < 10 then Char.ofNat (48 + n) else Char.ofNat (87 + n)

/-- Lowercase hex string of a byte list. -/
def bytesHex (l : List Nat) : String :=
  String.mk (l.foldr (fun b acc => hexDigit (b / 16) :: hexDigit (b % 16) :: acc) [])

/-- `hashlib.md5(msg).hexdigest()`. -/
def md5hex (msg : List Nat) : String := bytesHex (md5Digest msg)

/-! ## `hash_model` (idfclass.py lines 2921-2961) -/

/-- UTF-8 encoding of a string, restricted to the ASCII fragment (every
string fed to the hasher by the claims is ASCII, where the UTF-8 bytes are
exactly the code points). -/
def strBytes (s : String) : List Nat := s.data.map (fun c => c.toNat)

/-- The `idfname` argument of `hash_model`: an in-memory `StringIO` text
buffer, an already-loaded `IDF` handle (serialized via `idfstr()`), or a
file path (read as raw bytes). -/
inductive ModelRef where
  | buffer (content : String)
  | loaded (idfstr : String)
  | filepath (bytes : List Nat)
deriving DecidableEq, Repr

/-- The model bytes fed to the hasher, per the three `isinstance` branches
of `hash_model`. -/
def bufOf : ModelRef → List Nat
  | .buffer c => strBytes c
  | .loaded s => strBytes s
  | .filepath b => b

/-- The fixed list of non-result-affecting kwargs removed before hashing. -/
def no_impact : List String :=
  [("keep_data"), ("keep_data_err"), ("return_idf"), ("return_files")]

/-- `kwargs.pop(argument, None)` for each entry of `no_impact`. -/
def filterImpact (kwargs : List (String × PyLit)) : List (String × PyLit) :=
  kwargs.filter (fun p => !(no_impact.contains p.1))

/-- The key-wise comparison used by `sorted(kwargs.items())`; on dicts the
keys are distinct, so the tuple comparison is decided by the keys. -/
def kwLe (p q : String × PyLit) : Prop := p.1 ≤ q.1

instance : DecidableRel kwLe := fun p q => inferInstanceAs (Decidable (p.1 ≤ q.1))

/-- `OrderedDict(sorted(kwargs.items()))`'s ordering. -/
def sortKwargs (l : List (String × PyLit)) : List (String × PyLit) :=
  l.insertionSort kwLe

instance : IsTotal (String × PyLit) kwLe := ⟨fun p q => le_total p.1 q.1⟩

instance : IsTrans (String × PyLit) kwLe := ⟨fun _ _ _ h1 h2 => le_trans h1 h2⟩

/-- Strict key order; on key-distinct kwargs lists, `kwLe`-sortedness
upgrades to `kwLt`-sortedness, which has a unique sorted arrangement. -/
def kwLt (p q : String × PyLit) : Prop := p.1 < q.1

instance : IsAntisymm (String × PyLit) kwLt :=
  ⟨fun _ _ h h' => absurd (lt_trans h h') (lt_irrefl _)⟩

/-- The serialized kwargs string fed to the hasher: when the incoming
kwargs dict is empty the `if kwargs:` guard is skipped and the plain dict
renders as `\x7b\x7d`; otherwise the filtered, key-sorted `OrderedDict`
renders via `odictStr`. -/
def kwargsStr (kwargs : List (String × PyLit)) : String :=
  if kwargs.isEmpty then dictStr []
  else odictStr (sortKwargs (filterImpact kwargs))

/-- `hash_model(idfname, **kwargs)`: one incremental MD5 over the model
bytes followed by the serialized kwargs. -/
def hash_model (m : ModelRef) (kwargs : List (String × PyLit)) : String :=
  md5hex (bufOf m ++ strBytes (kwargsStr kwargs))

/-! ## The dependency-tracked attribute graph of class `IDF`
(idfclass.py lines 62-122 and the `@property` declarations)

Instance attributes are modeled as the Python instance `__dict__`: an
association list from attribute name to value, where assignment replaces
in place or appends.  Attribute values are opaque for the claims at hand. -/

/-- Opaque Python attribute values; `PyVal.none` is Python's `None`, the
"unset" marker of the dependent slots. -/
inductive PyVal where
  | none
  | str (s : String)
  | othr (n : Nat)
deriving DecidableEq, Repr

/-- The instance `__dict__`. -/
def AttrMap := List (String × PyVal)

instance : DecidableEq AttrMap := inferInstanceAs (DecidableEq (List (String × PyVal)))

/-- Attribute lookup in the instance `__dict__`. -/
def getAttr : AttrMap → String → Option PyVal
  | [], _ => Option.none
  | p :: rest, k => if p.1 = k then some p.2 else getAttr rest k

/-- `object.__setattr__`: replace the binding in place if present,
else append. -/
def rawSet : AttrMap → String → PyVal → AttrMap
  | [], k, v => [(k, v)]
  | p :: rest, k, v => if p.1 = k then (k, v) :: rest else p :: rawSet rest k v

/-- Errors raised by the attribute machinery. -/
inductive PyErr where
  | attributeError (msg : String)
  | energyPlusVersionError
deriving DecidableEq, Repr

/-- `IDF._dependencies`: dependent attribute -> independent attributes it
depends on, in class-body order. -/
def _dependencies : List (String × List String) :=
  [(("iddname"), [("idfname"), ("as_version")]),
   (("file_version"), [("idfname")]),
   (("idd_info"), [("iddname"), ("idfname")]),
   (("idd_index"), [("iddname"), ("idfname")]),
   (("idd_version"), [("iddname"), ("idfname")]),
   (("idfobjects"), [("iddname"), ("idfname")]),
   (("block"), [("iddname"), ("idfname")]),
   (("model"), [("iddname"), ("idfname")]),
   (("sql"), [("as_version"), ("annual"), ("design_day"), ("epw"), ("idfname"), ("iddname")]),
   (("htm"), [("as_version"), ("annual"), ("design_day"), ("epw"), ("idfname"), ("iddname")]),
   (("schedules_dict"), [("idfobjects")])]

/-- `IDF._dependant_vars = set(_dependencies.keys())` (membership view). -/
def _dependant_vars : List String := _dependencies.map (fun p => p.1)

/-- `IDF._independant_vars = set(chain(*_dependencies.values()))`
(membership view; duplicates are harmless since only `in` is used). -/
def _independant_vars : List String := (_dependencies.map (fun p => p.2)).flatten

/-- The row `_reverse_dependencies[name]` of the reverse adjacency map that
`IDF._reset_dependant_vars` rebuilds on each call: the dependents whose
dependency list contains `name` directly, in `_dependencies` order. -/
def _reverse_dependencies (name : String) : List String :=
  (_dependencies.filter (fun kv => kv.2.contains name)).map (fun p => p.1)

/-- `IDF._reset_dependant_vars(name)`: set the underscore slot of every
direct dependent of `name` to `None`. -/
def _reset_dependant_vars (st : AttrMap) (name : String) : AttrMap :=
  (_reverse_dependencies name).foldl
    (fun s var => rawSet s ("_" ++ var) PyVal.none) st

/-- Kind of the class attribute found by `getattr(self.__class__, key)`. -/
inductive PropKind where
  | notProp
  | getterOnly
  | getterSetter
deriving DecidableEq, Repr

/-- The `@property` declarations of class `IDF`: only `idfname`, `epw` and
`as_version` carry a setter; every other property is getter-only.  Names
not in either list (in particular all underscore slots) are plain
attributes. -/
def propKind (k : String) : PropKind :=
  if [("idfname"), ("epw"), ("as_version")].contains k then .getterSetter
  else if
    [("original_idfname"), ("block"), ("idd_info"), ("idd_index"),
     ("idd_version"), ("idfobjects"), ("model"), ("iddname"),
     ("file_version"), ("custom_processes"), ("include"), ("keep_data_err"),
     ("keep_data"), ("simulname"), ("output_suffix"), ("verbose"),
     ("expandobjects"), ("readvars"), ("epmacro"), ("design_day"),
     ("annual"), ("prep_outputs"), ("position"), ("idfversionupdater_dir"),
     ("output_directory"), ("output_prefix"), ("idf_version"), ("name"),
     ("sql"), ("htm"), ("sql_file"), ("area_conditioned"),
     ("partition_ratio"), ("simulation_files"), ("simulation_dir"),
     ("schedules_dict"), ("outputs"),
     ("day_of_week_for_start_day")].contains k then .getterOnly
  else .notProp

/-- External collaborators of the three setters: `Path(value).expand()`
(filesystem-dependent), `parse(value)` (the version parser from
archetypal.utils, not part of the analyzed sources) and
`self.valid_idds()` (directory listing). -/
structure SetterEnv where
  expand : PyVal → PyVal
  parse : PyVal → PyVal
  validIdds : List PyVal

/-- The body of the property setter `propobj.fset(self, value)` for the
three settable properties. -/
def fsetRun (env : SetterEnv) (st : AttrMap) (k : String) (v : PyVal) :
    Except PyErr AttrMap :=
  if k = "idfname" then .ok (rawSet st ("_idfname") (env.expand v))
  else if k = "epw" then .ok (rawSet st ("_epw") (env.expand v))
  else if k = "as_version" then
    let parsed := env.parse v
    if env.validIdds.contains parsed then .ok (rawSet st ("_as_version") parsed)
    else .error .energyPlusVersionError
  else .ok st

/-- `IDF.__set_on_dependencies(key, value)`. -/
def setOnDependencies (st : AttrMap) (key : String) (v : PyVal) :
    Except PyErr AttrMap :=
  if _dependant_vars.contains key then
    .error (.attributeError ("Cannot set this value."))
  else if _independant_vars.contains key then
    .ok (rawSet (_reset_dependant_vars st key) ("_" ++ key) v)
  else .ok (rawSet st key v)

/-- `IDF.__setattr__(key, value)`. -/
def setattrIDF (env : SetterEnv) (st : AttrMap) (key : String) (v : PyVal) :
    Except PyErr AttrMap :=
  match propKind key with
  | .getterOnly => .error (.attributeError ("Cannot set attribute"))
  | .getterSetter => do
      let st1 ← fsetRun env st key v
      setOnDependencies st1 key v
  | .notProp => setOnDependencies st key v

/-- `IDF.setiddname(iddname, testing=False)`: three attribute writes, the
first on the getter-only property `iddname`. -/
def setiddname (env : SetterEnv) (st : AttrMap) (iddname : PyVal) :
    Except PyErr AttrMap := do
  let st1 ← setattrIDF env st ("iddname") iddname
  let st2 ← setattrIDF env st1 ("idd_info") PyVal.none
  setattrIDF env st2 ("block") PyVal.none

/-! ## Version migration engine
(idfclass.py lines 3182-3375: `idf_version_updater`, `_check_version`,
module-level `_execute_transitions`; lines 911-973 and 1550-1594:
`IDF.upgrade`, `IDF._execute_transitions`) -/

/-- An EnergyPlus version identifier `maj-minr-rev`. -/
structure EpVer where
  maj : Nat
  minr : Nat
  rev : Nat
deriving DecidableEq, Repr

/-- Numeric (int-tuple) strict order on versions, as computed by
`tuple(map(int, key.split("-"))) < ...`. -/
def vlt (x y : EpVer) : Bool :=
  Nat.blt x.maj y.maj ||
    (x.maj == y.maj &&
      (Nat.blt x.minr y.minr || (x.minr == y.minr && Nat.blt x.rev y.rev)))

/-- `x <= y` on versions (total order complement of `vlt`). -/
def vle (x y : EpVer) : Bool := !(vlt y x)

/-- `"X-Y-Z"` rendering of a version. -/
def verDash (v : EpVer) : String :=
  toString v.maj ++ "-" ++ toString v.minr ++ "-" ++ toString v.rev

/-- The fixed `trans_exec` table of the module-level
`_execute_transitions`, in source (dict-insertion) order: each entry is an
adjacent `(from, to)` version step. -/
def transitionTable : List (EpVer × EpVer) :=
  [(⟨1,0,0⟩, ⟨1,0,1⟩), (⟨1,0,1⟩, ⟨1,0,2⟩), (⟨1,0,2⟩, ⟨1,0,3⟩),
   (⟨1,0,3⟩, ⟨1,1,0⟩), (⟨1,1,0⟩, ⟨1,1,1⟩), (⟨1,1,1⟩, ⟨1,2,0⟩),
   (⟨1,2,0⟩, ⟨1,2,1⟩), (⟨1,2,1⟩, ⟨1,2,2⟩), (⟨1,2,2⟩, ⟨1,2,3⟩),
   (⟨1,2,3⟩, ⟨1,3,0⟩), (⟨1,3,0⟩, ⟨1,4,0⟩), (⟨1,4,0⟩, ⟨2,0,0⟩),
   (⟨2,0,0⟩, ⟨2,1,0⟩), (⟨2,1,0⟩, ⟨2,2,0⟩), (⟨2,2,0⟩, ⟨3,0,0⟩),
   (⟨3,0,0⟩, ⟨3,1,0⟩), (⟨3,1,0⟩, ⟨4,0,0⟩), (⟨4,0,0⟩, ⟨5,0,0⟩),
   (⟨5,0,0⟩, ⟨6,0,0⟩), (⟨6,0,0⟩, ⟨7,0,0⟩), (⟨7,0,0⟩, ⟨7,1,0⟩),
   (⟨7,1,0⟩, ⟨7,2,0⟩), (⟨7,2,0⟩, ⟨8,0,0⟩), (⟨8,0,0⟩, ⟨8,1,0⟩),
   (⟨8,1,0⟩, ⟨8,2,0⟩), (⟨8,2,0⟩, ⟨8,3,0⟩), (⟨8,3,0⟩, ⟨8,4,0⟩),
   (⟨8,4,0⟩, ⟨8,5,0⟩), (⟨8,5,0⟩, ⟨8,6,0⟩), (⟨8,6,0⟩, ⟨8,7,0⟩),
   (⟨8,7,0⟩, ⟨8,8,0⟩), (⟨8,8,0⟩, ⟨8,9,0⟩), (⟨8,9,0⟩, ⟨9,0,0⟩),
   (⟨9,0,0⟩, ⟨9,1,0⟩), (⟨9,1,0⟩, ⟨9,2,0⟩)]

/-- All version identifiers named by the migration table (sources plus the
final target `9-2-0`). -/
def allVersions : List EpVer := transitionTable.map (fun p => p.1) ++ [⟨9,2,0⟩]

/-- Basename of the transition executable for one adjacent step (the
on-disk path additionally carries the `IDFVersionUpdater` directory and a
platform `.exe` suffix, both invariant across the claims). -/
def transExecName (p : EpVer × EpVer) : String :=
  "Transition-V" ++ verDash p.1 ++ "-to-V" ++ verDash p.2

/-- Step selection of the module-level `_execute_transitions` (lines
3339-3344): table keys (step source versions) with
`versionid <= key < to_version`, in table order. -/
def selectTransitions (versionid to_version : EpVer) : List (EpVer × EpVer) :=
  transitionTable.filter (fun p => vlt p.1 to_version && vle versionid p.1)

/-- Key order used by `transitions.sort()` in `IDF._execute_transitions`,
where keys are the step destination versions. -/
def destLe (p q : EpVer × EpVer) : Prop := vle p.2 q.2 = true

instance : DecidableRel destLe := fun p q => inferInstanceAs (Decidable (vle p.2 q.2 = true))

/-- Step selection of the instance method `IDF._execute_transitions`
(lines 1550-1559): its `trans_exec` is keyed by the step *destination*
parsed from `Transition-V*-to-V(X-Y-Z)`, selected with
`to_version >= key > self.idf_version` and sorted ascending.  The standard
`IDFVersionUpdater` directory holds exactly the programs of
`transitionTable`. -/
def selectTransitionsByDest (idf_version to_version : EpVer) :
    List (EpVer × EpVer) :=
  (transitionTable.filter
    (fun p => vle p.2 to_version && vlt idf_version p.2)).insertionSort destLe

/-- Errors of the migration and simulation subprocess machinery. -/
inductive MigErr where
  | energyPlusVersionError (idfFile : String) (versionid to_version : EpVer)
  | energyPlusProcessError (cmd : String) (stderr : String) (idf : String)
deriving DecidableEq, Repr

/-- The `stderr` text of the missing-transition-program error (lines
3350-3355 and 1569-1574). -/
def missingMsg (to_version : EpVer) (execName : String) : String :=
  "The specified EnergyPlus version (v" ++ verDash to_version ++
    ") does not have the required transition program \x27" ++ execName ++
    "\x27 in the PreProcess folder. See the documentation " ++
    "(archetypal.readthedocs.io/troubleshooting.html#missing-transition-programs) " ++
    "to solve this issue"

/-- The transition loop: walk the selected steps in order; a step whose
executable is absent raises `EnergyPlusProcessError` naming it; an existing
step's program is invoked (recorded in the trace) and the loop continues.
Returns the invocation trace together with the outcome. -/
def runTransitionsGo (exeExists : String → Bool) (idfFile : String)
    (to_version : EpVer) :
    List (EpVer × EpVer) → List String → List String × Except MigErr Unit
  | [], acc => (acc.reverse, .ok ())
  | p :: rest, acc =>
    let exec := transExecName p
    if exeExists exec then
      runTransitionsGo exeExists idfFile to_version rest (exec :: acc)
    else
      (acc.reverse,
        .error (.energyPlusProcessError exec (missingMsg to_version exec) idfFile))

/-- Module-level `_execute_transitions(idf_file, to_version, versionid)`. -/
def _execute_transitions (exeExists : String → Bool) (idfFile : String)
    (to_version versionid : EpVer) : List String × Except MigErr Unit :=
  runTransitionsGo exeExists idfFile to_version
    (selectTransitions versionid to_version) []

/-- `IDF._execute_transitions(idf_file, to_version)` (dest-keyed
selection). -/
def executeTransitionsInstance (exeExists : String → Bool) (name : String)
    (idf_version to_version : EpVer) : List String × Except MigErr Unit :=
  runTransitionsGo exeExists name to_version
    (selectTransitionsByDest idf_version to_version) []

/-- Python `str < str`: lexicographic comparison by code point. -/
def pyCharListLt : List Char → List Char → Bool
  | [], [] => false
  | [], _ :: _ => true
  | _ :: _, [] => false
  | a :: as, b :: bs =>
    if a.toNat < b.toNat then true
    else if b.toNat < a.toNat then false
    else pyCharListLt as bs

/-- Python `str < str` on whole strings. -/
def pyStrLt (s t : String) : Bool := pyCharListLt s.data t.data

/-- Python string comparison `tuple(versionid.split("-")) >
tuple(to_version.split("-"))` of `_check_version` (line 3284): the
components are compared as *decimal strings*, lexicographically by code
point, not as integers. -/
def strTupleGt (v w : EpVer) : Bool :=
  pyStrLt (toString w.maj) (toString v.maj) ||
    (toString v.maj == toString w.maj &&
      (pyStrLt (toString w.minr) (toString v.minr) ||
        (toString v.minr == toString w.minr &&
          pyStrLt (toString w.rev) (toString v.rev))))

/-- Result of `_check_version`: the `(to_version, versionid)` pair, or the
stray copied-path return of the pre-8.0 branch. -/
inductive CheckResult where
  | pair (to_version versionid : EpVer)
  | copied (path : String)
deriving DecidableEq, Repr

/-- External facts consulted by `_check_version`: whether
`getiddfile(doted_version)` exists, and the latest installed version. -/
structure MigEnv where
  iddExists : Bool
  latest : EpVer

/-- `_check_version(idf_file, to_version, out_dir)` (lines 3262-3286).
The `doted_version < (8, 0)` test reduces to `maj < 8`. -/
def _check_version (env : MigEnv) (idfFile : String) (versionid : EpVer)
    (to_version : Option EpVer) : Except MigErr CheckResult :=
  if env.iddExists ∧ to_version = some versionid then
    .ok (.pair versionid versionid)
  else if ¬env.iddExists ∧ versionid.maj < 8 ∧ to_version = some versionid then
    .ok (.copied idfFile)
  else
    let tv := to_version.getD env.latest
    if strTupleGt versionid tv then
      .error (.energyPlusVersionError idfFile versionid tv)
    else .ok (.pair tv versionid)

/-- `idf_version_updater(idf_file, to_version, ...)` (lines 3182-3259):
check the version, no-op when already at the target, else run the
transitions.  The first component is the trace of invoked transition
programs. -/
def idf_version_updater (env : MigEnv) (exeExists : String → Bool)
    (idfFile : String) (versionid : EpVer) (to_version : Option EpVer) :
    List String × Except MigErr Unit :=
  match _check_version env idfFile versionid to_version with
  | .error e => ([], .error e)
  | .ok (.copied _) => ([], .ok ())
  | .ok (.pair tv vid) =>
    if vid = tv then ([], .ok ())
    else _execute_transitions exeExists idfFile tv vid

/-- `IDF.upgrade(to_version)` (lines 911-973): `file_version` and
`to_version` are parsed version objects (the external `parse` collaborator
yields numerically ordered versions), compared numerically; a downgrade
request raises `EnergyPlusVersionError` before `_execute_transitions` is
reached. -/
def upgrade (exeExists : String → Bool) (name : String)
    (file_version to_version : EpVer) : List String × Except MigErr Unit :=
  if file_version = to_version then ([], .ok ())
  else if vlt to_version file_version then
    ([], .error (.energyPlusVersionError name file_version to_version))
  else executeTransitionsInstance exeExists name file_version to_version

/-! ## `_run_exec` failure handling (idfclass.py lines 2872-2890) -/

/-- Facts about one finished EnergyPlus subprocess: its return code and the
readable files of the working directory (name to contents). -/
structure RunEnv where
  returnCode : Int
  files : String → Option String

/-- Outcome of the tail of `_run_exec` after `process.wait()`. -/
inductive RunOutcome where
  | normal
  | energyPlusProcessError (cmd : List String) (stderr : String) (idf : String)
  | calledProcessError (returncode : Int) (cmd : List String)

/-- The exit handling of `_run_exec`: on a non-zero return code, read
`<output_prefix>out.err` and raise `EnergyPlusProcessError` with the
command, its contents and the model name; when opening that file raises
`FileNotFoundError`, raise `subprocess.CalledProcessError` instead. -/
def _run_exec_exit (env : RunEnv) (cmd : List String)
    (outputPfx idfBasename : String) : RunOutcome :=
  if env.returnCode = 0 then .normal
  else
    match env.files (outputPfx ++ "out.err") with
    | some stderrR => .energyPlusProcessError cmd stderrR idfBasename
    | Option.none => .calledProcessError env.returnCode cmd

/-! ## `summary_reports_to_dataframes` (idfclass.py lines 3098-3118) -/

/-- A parsed HTML table: list of rows of cells. -/
def Tbl := List (List String)

instance : DecidableEq Tbl := inferInstanceAs (DecidableEq (List (List String)))

/-- A DataFrame shaped by
`df.rename(columns=df.iloc[0]).drop(df.index[0])`: the first row becomes
the column labels, the remaining rows the body. -/
def mkDf (t : Tbl) : List String × List (List String) := (t.headD [], t.tail)

/-- Python dict assignment `d[k] = v`: replace in place or append. -/
def dictInsert {α : Type} : List (String × α) → String → α → List (String × α)
  | [], k, v => [(k, v)]
  | p :: rest, k, v => if p.1 = k then (k, v) :: rest else p :: dictInsert rest k v

/-- The key chosen for a title given the dict keys present so far: a title
already among the keys gets a single `"_"` appended (`key = key + "_"`),
independently of how many entries share the title. -/
def assignKey (seen : List String) (title : String) : String :=
  if seen.contains title then title ++ "_" else title

/-- One iteration of the `summary_reports_to_dataframes` loop. -/
def summaryStep (acc : List (String × (List String × List (List String))))
    (t : String × Tbl) : List (String × (List String × List (List String))) :=
  dictInsert acc (assignKey (acc.map (fun p => p.1)) t.1) (mkDf t.2)

/-- `summary_reports_to_dataframes(reports_list)`: build the
title-to-DataFrame dict. -/
def summary_reports_to_dataframes (reports : List (String × Tbl)) :
    List (String × (List String × List (List String))) :=
  reports.foldl summaryStep []

/-- The key each input pair ends up stored under, tracking the dict keys
assigned so far (used to state when `summary_reports_to_dataframes` is
lossless). -/
def assignedKeysAux : List String → List (String × Tbl) → List String
  | _, [] => []
  | seen, t :: rest =>
    assignKey seen t.1 :: assignedKeysAux (assignKey seen t.1 :: seen) rest

/-- The keys assigned to the input pairs, in order. -/
def assignedKeys (reports : List (String × Tbl)) : List String :=
  assignedKeysAux [] reports

/-! ## Helper lemmas -/

theorem getAttr_rawSet (st : AttrMap) (k k' : String) (v : PyVal) :
    getAttr (rawSet st k v) k' = if k' = k then some v else getAttr st k' := by
  induction st with
  | nil =>
    by_cases h : k' = k
    · simp [getAttr, rawSet, h]
    · simp [getAttr, rawSet, h, Ne.symm h]
  | cons p rest ih =>
    by_cases h1 : p.1 = k
    · by_cases h2 : k' = k
      · simp [getAttr, rawSet, h1, h2]
      · simp [getAttr, rawSet, h1, h2, Ne.symm h2]
    · by_cases h3 : p.1 = k'
      · have hk : ¬k' = k := fun hh => h1 (h3.trans hh)
        simp [getAttr, rawSet, h1, h3, hk]
      · simp [getAttr, rawSet, h1, h3, ih]

/-- `_reset_dependant_vars` on `idfname` unrolled: the ten direct
dependents, in `_dependencies` order. -/
theorem reset_idfname (st : AttrMap) :
    _reset_dependant_vars st ("idfname") =
      rawSet (rawSet (rawSet (rawSet (rawSet (rawSet (rawSet (rawSet (rawSet
       (rawSet st ("_iddname") PyVal.none) ("_file_version") PyVal.none)
       ("_idd_info") PyVal.none) ("_idd_index") PyVal.none)
       ("_idd_version") PyVal.none) ("_idfobjects") PyVal.none)
       ("_block") PyVal.none) ("_model") PyVal.none) ("_sql") PyVal.none)
       ("_htm") PyVal.none := rfl

/-- `IDF.__setattr__` on `idfname` unrolled: the setter stores the
expanded path, the direct dependents are reset, and the raw value is
stored in the `_idfname` slot. -/
theorem setattr_idfname (env : SetterEnv) (st : AttrMap) (v : PyVal) :
    setattrIDF env st ("idfname") v =
      .ok (rawSet
        (_reset_dependant_vars (rawSet st ("_idfname") (env.expand v)) ("idfname"))
        ("_idfname") v) := rfl

/-! ## Claim theorems -/

/-- C1 counterexample.  The claim states that writing the independent
attribute `idfname` immediately unsets every *transitively* dependent
attribute, in particular `schedules_dict` (whose dependency chain runs
through `idfobjects`).  It is false: `_reset_dependant_vars` only clears
the dependents whose dependency list contains the written name *directly*,
and `schedules_dict` depends only on `idfobjects`.  Concretely, on an
instance whose `_schedules_dict` slot holds a cached value, assigning
`idfname` succeeds and leaves `_schedules_dict` at the cached value, so
`schedules_dict` does not read as unset. -/
theorem idfname_write_leaves_schedules_dict_cached :
    ∃ st', setattrIDF ⟨id, id, []⟩ [(("_schedules_dict"), PyVal.str ("cached"))]
        ("idfname") (PyVal.str ("new.idf")) = .ok st' ∧
      getAttr st' ("_schedules_dict") = some (PyVal.str ("cached")) ∧
      getAttr st' ("_schedules_dict") ≠ some PyVal.none :=
  ⟨_, rfl, rfl, by decide⟩

/-- C1 as amended.  Writing `idfname` (an independent attribute with a
property setter) stores the value and immediately resets exactly the
dependent attributes whose static dependency set contains `idfname`
directly — `iddname`, `file_version`, `idd_info`, `idd_index`,
`idd_version`, `idfobjects`, `block`, `model`, `sql`, `htm` — while the
transitive dependent `schedules_dict` keeps its cached value.  The
independent attributes `annual` and `design_day` cannot be assigned at
all: their properties have no setter, so `__setattr__` raises
`AttributeError`. -/
theorem independent_write_resets_direct_dependents_only
    (env : SetterEnv) (st : AttrMap) (v : PyVal) :
    ∃ st', setattrIDF env st ("idfname") v = .ok st'
      ∧ getAttr st' ("_idfname") = some v
      ∧ (∀ d ∈ _reverse_dependencies ("idfname"), getAttr st' ("_" ++ d) = some PyVal.none)
      ∧ getAttr st' ("_schedules_dict") = getAttr st ("_schedules_dict")
      ∧ setattrIDF env st ("annual") v = .error (.attributeError ("Cannot set attribute"))
      ∧ setattrIDF env st ("design_day") v = .error (.attributeError ("Cannot set attribute")) := by
  refine ⟨_, setattr_idfname env st v, ?_, ?_, ?_, rfl, rfl⟩
  · rw [reset_idfname]
    simp [getAttr_rawSet]
  · intro d hd
    simp [_reverse_dependencies, _dependencies] at hd
    rw [reset_idfname]
    rcases hd with rfl|rfl|rfl|rfl|rfl|rfl|rfl|rfl|rfl|rfl <;> simp [getAttr_rawSet]
  · rw [reset_idfname]
    simp [getAttr_rawSet]

/-- C4.  Assigning any of the eleven dependent (derived) attributes of an
`IDF` instance — `iddname`, `file_version`, `idd_info`, `idd_index`,
`idd_version`, `idfobjects`, `block`, `model`, `sql`, `htm`,
`schedules_dict` — always fails with `AttributeError`: each is a
getter-only property, so `__setattr__` raises before touching the
instance dictionary (in this functional embedding the error outcome
carries no modified state). -/
theorem dependent_attribute_write_raises
    (d : String) (hd : d ∈ _dependant_vars) (env : SetterEnv) (st : AttrMap) (v : PyVal) :
    setattrIDF env st d v = .error (.attributeError ("Cannot set attribute")) := by
  simp [_dependant_vars, _dependencies] at hd
  rcases hd with rfl|rfl|rfl|rfl|rfl|rfl|rfl|rfl|rfl|rfl|rfl <;> rfl

/-- Witness for C4 at the dependent attribute `sql`. -/
theorem dependent_attribute_write_raises_witness :
    ("sql") ∈ _dependant_vars ∧
      setattrIDF ⟨id, id, []⟩ [] ("sql") PyVal.none =
        .error (.attributeError ("Cannot set attribute")) :=
  ⟨by decide, dependent_attribute_write_raises ("sql") (by decide) ⟨id, id, []⟩ [] PyVal.none⟩

/-- C10.  `IDF.setiddname` always raises `AttributeError`: its first
statement assigns `self.iddname`, a dependent property defined without a
setter, so the write interceptor rejects the assignment before any
instance state changes. -/
theorem setiddname_always_raises (env : SetterEnv) (st : AttrMap) (v : PyVal) :
    setiddname env st v = .error (.attributeError ("Cannot set attribute")) := rfl

theorem sortKwargs_perm_eq (l1 l2 : List (String × PyLit))
    (hperm : l1.Perm l2) (hnd : (l1.map Prod.fst).Nodup) :
    sortKwargs l1 = sortKwargs l2 := by
  have hp1 : (sortKwargs l1).Perm l1 := List.perm_insertionSort kwLe l1
  have hp2 : (sortKwargs l2).Perm l2 := List.perm_insertionSort kwLe l2
  have hp : (sortKwargs l1).Perm (sortKwargs l2) := (hp1.trans hperm).trans hp2.symm
  have hs1 : (sortKwargs l1).Sorted kwLe := List.sorted_insertionSort kwLe l1
  have hs2 : (sortKwargs l2).Sorted kwLe := List.sorted_insertionSort kwLe l2
  have hnd1 : ((sortKwargs l1).map Prod.fst).Nodup := ((hp1.map Prod.fst).nodup_iff).mpr hnd
  have hnd2 : ((sortKwargs l2).map Prod.fst).Nodup := ((hp.symm.map Prod.fst).nodup_iff).mpr hnd1
  have hstrict : ∀ (l : List (String × PyLit)),
      l.Sorted kwLe → (l.map Prod.fst).Nodup → l.Sorted kwLt := by
    intro l hs hn
    have hne : l.Pairwise (fun a b => a.1 ≠ b.1) := (List.pairwise_map).mp hn
    exact (hs.and hne).imp (fun h => lt_of_le_of_ne h.1 h.2)
  exact List.eq_of_perm_of_sorted hp (hstrict _ hs1 hnd1) (hstrict _ hs2 hnd2)

theorem kwargsStr_perm (k1 k2 : List (String × PyLit))
    (hemp : k1.isEmpty = k2.isEmpty)
    (hperm : (filterImpact k1).Perm (filterImpact k2))
    (hnd : ((filterImpact k1).map Prod.fst).Nodup) :
    kwargsStr k1 = kwargsStr k2 := by
  unfold kwargsStr
  rw [hemp]
  cases h : k2.isEmpty with
  | true => rfl
  | false =>
    simp only [h, Bool.false_eq_true, if_false]
    exact congrArg odictStr (sortKwargs_perm_eq _ _ hperm hnd)

/-- C2.  `hash_model` returns the same digest regardless of the insertion
order of the keyword arguments: for any model reference and any
reordering (permutation) of a kwargs mapping (distinct keys, as in any
Python dict), the digests agree, because the remaining kwargs are
serialized in sorted-key order before hashing. -/
theorem hash_model_kwargs_order_invariant (m : ModelRef)
    (k1 k2 : List (String × PyLit)) (hperm : k1.Perm k2)
    (hnd : (k1.map Prod.fst).Nodup) :
    hash_model m k1 = hash_model m k2 := by
  have hemp : k1.isEmpty = k2.isEmpty := by
    cases k1 with
    | nil => rw [hperm.symm.eq_nil]
    | cons a t =>
      cases k2 with
      | nil => exact absurd hperm.eq_nil (by simp)
      | cons b u => rfl
  have hndf : ((filterImpact k1).map Prod.fst).Nodup := by
    have hsub : List.Sublist ((filterImpact k1).map Prod.fst) (k1.map Prod.fst) :=
      (List.filter_sublist k1).map Prod.fst
    exact hnd.sublist hsub
  unfold hash_model
  rw [kwargsStr_perm k1 k2 hemp (hperm.filter _) hndf]

/-- Witness for C2: `hash_model(m, epw=..., annual=False)` equals
`hash_model(m, annual=False, epw=...)`. -/
theorem hash_model_kwargs_order_invariant_witness :
    List.Perm [(("epw"), PyLit.pystr ("w.epw")), (("annual"), PyLit.pybool false)]
        [(("annual"), PyLit.pybool false), (("epw"), PyLit.pystr ("w.epw"))] ∧
      ([(("epw"), PyLit.pystr ("w.epw")), (("annual"), PyLit.pybool false)].map Prod.fst).Nodup ∧
      hash_model (.buffer ("VERSION, 9.2;"))
          [(("epw"), PyLit.pystr ("w.epw")), (("annual"), PyLit.pybool false)] =
        hash_model (.buffer ("VERSION, 9.2;"))
          [(("annual"), PyLit.pybool false), (("epw"), PyLit.pystr ("w.epw"))] :=
  ⟨by decide, by decide,
    hash_model_kwargs_order_invariant (.buffer ("VERSION, 9.2;")) _ _ (by decide) (by decide)⟩

/-- C3 counterexample.  The claim states that adding one of the excluded
non-result-affecting arguments (`keep_data`, `keep_data_err`,
`return_idf`, `return_files`) leaves the digest unchanged.  It is false
when the kwargs mapping is otherwise empty: with no kwargs the plain dict
serializes as `\x7b\x7d`, but a nonempty kwargs dict emptied by the
exclusion filter serializes as `OrderedDict()`, so
`hash_model(m, keep_data=True) != hash_model(m)`. -/
theorem hash_model_changes_when_adding_keep_data :
    hash_model (.buffer ("VERSION, 9.2;")) [(("keep_data"), PyLit.pybool true)] ≠
      hash_model (.buffer ("VERSION, 9.2;")) [] := by decide

/-- C3 as amended.  The digest depends only on the model content, the
multiset of result-affecting (non-excluded) kwargs, and the emptiness
status of the raw kwargs dict: adding, removing or changing the value of
the excluded arguments `keep_data`, `keep_data_err`, `return_idf`,
`return_files` leaves the digest unchanged, provided the kwargs dict is
empty in both calls or nonempty in both calls (the single exception being
an excluded argument added to an otherwise empty call, which flips the
serialization from `\x7b\x7d` to `OrderedDict()`). -/
theorem hash_model_excluded_kwargs_invariant (m : ModelRef)
    (k1 k2 : List (String × PyLit))
    (hemp : k1.isEmpty = k2.isEmpty)
    (hperm : (filterImpact k1).Perm (filterImpact k2))
    (hnd : ((filterImpact k1).map Prod.fst).Nodup) :
    hash_model m k1 = hash_model m k2 := by
  unfold hash_model
  rw [kwargsStr_perm k1 k2 hemp hperm hnd]

/-- Witness for the amended C3: replacing the excluded kwarg `keep_data`
by the excluded kwarg `keep_data_err` (value changed too) keeps the
digest. -/
theorem hash_model_excluded_kwargs_invariant_witness :
    hash_model (.buffer ("VERSION, 9.2;")) [(("keep_data"), PyLit.pybool true)] =
      hash_model (.buffer ("VERSION, 9.2;")) [(("keep_data_err"), PyLit.pybool false)] :=
  hash_model_excluded_kwargs_invariant _ _ _ (by decide) (by decide) (by decide)

theorem vlt_irrefl (x : EpVer) : vlt x x = false := by
  have h : ∀ n : Nat, Nat.ble (n + 1) n = false := by
    intro n
    cases hb : Nat.ble (n + 1) n
    · rfl
    · exact absurd (Nat.le_of_ble_eq_true hb) (by omega)
  simp [vlt, Nat.blt, h]

/-- C5.  The migration step selection: (i) a step of the transition table
is selected iff its source version `k` satisfies `V <= k < T`; (ii) the
selected steps are invoked in strictly ascending version order; (iii) on
the known version identifiers, the instance method's destination-keyed
selection (`to_version >= dest > idf_version`, sorted) picks exactly the
same ordered steps; (iv) migrating from `8-9-0` to `9-2-0` runs exactly
the steps starting at `8-9-0`, `9-0-0` and `9-1-0`, in that order.  Each
step is invoked on the working file updated by the previous step
(`cmd = [trans_exec[trans], idf_file]` inside one working directory). -/
theorem transition_selection_spec (V T : EpVer) :
    (∀ p, p ∈ selectTransitions V T ↔
        p ∈ transitionTable ∧ vle V p.1 = true ∧ vlt p.1 T = true) ∧
      List.Pairwise (fun p q => vlt p.1 q.1 = true) (selectTransitions V T) ∧
      (V ∈ allVersions → T ∈ allVersions →
        selectTransitionsByDest V T = selectTransitions V T) ∧
      selectTransitions ⟨8,9,0⟩ ⟨9,2,0⟩ =
        [(⟨8,9,0⟩, ⟨9,0,0⟩), (⟨9,0,0⟩, ⟨9,1,0⟩), (⟨9,1,0⟩, ⟨9,2,0⟩)] := by
  refine ⟨?_, ?_, ?_, by decide⟩
  · intro p
    simp [selectTransitions, List.mem_filter, Bool.and_eq_true]
    tauto
  · have htable : List.Pairwise (fun p q => vlt p.1 q.1 = true) transitionTable := by
      decide
    exact htable.sublist (List.filter_sublist _)
  · intro hV hT
    have H : ∀ v ∈ allVersions, ∀ t ∈ allVersions,
        selectTransitionsByDest v t = selectTransitions v t := by decide
    exact H V hV T hT

/-- Witness for C5 at `V = 8-9-0`, `T = 9-2-0`. -/
theorem transition_selection_spec_witness :
    selectTransitionsByDest ⟨8,9,0⟩ ⟨9,2,0⟩ = selectTransitions ⟨8,9,0⟩ ⟨9,2,0⟩ ∧
      selectTransitions ⟨8,9,0⟩ ⟨9,2,0⟩ =
        [(⟨8,9,0⟩, ⟨9,0,0⟩), (⟨9,0,0⟩, ⟨9,1,0⟩), (⟨9,1,0⟩, ⟨9,2,0⟩)] :=
  ⟨(transition_selection_spec ⟨8,9,0⟩ ⟨9,2,0⟩).2.2.1 (by decide) (by decide),
    (transition_selection_spec ⟨8,9,0⟩ ⟨9,2,0⟩).2.2.2⟩

theorem strTupleGt_eq_vlt (V T : EpVer)
    (h1 : V.maj < 10) (h2 : V.minr < 10) (h3 : V.rev < 10)
    (h4 : T.maj < 10) (h5 : T.minr < 10) (h6 : T.rev < 10) :
    strTupleGt V T = vlt T V := by
  have hlt : ∀ a, a < 10 → ∀ b, b < 10 →
      pyStrLt (toString a) (toString b) = Nat.blt a b := by decide
  have heq : ∀ a, a < 10 → ∀ b, b < 10 →
      (toString a == toString b) = (b == a) := by decide
  unfold strTupleGt vlt
  rw [hlt _ h4 _ h1, hlt _ h5 _ h2, hlt _ h6 _ h3,
    heq _ h1 _ h4, heq _ h2 _ h5]

/-- C6.  A downgrade request (file version `V` strictly greater than the
target `T`, numerically, over the single-digit component range that every
real EnergyPlus version inhabits) makes both `idf_version_updater` (via
`_check_version`'s string-tuple comparison) and `IDF.upgrade` (via the
parsed-version comparison) raise `EnergyPlusVersionError` with an empty
invocation trace — that is, before any transition executable runs. -/
theorem downgrade_raises_version_error (env : MigEnv) (exeE : String → Bool)
    (f : String) (V T : EpVer)
    (h1 : V.maj < 10) (h2 : V.minr < 10) (h3 : V.rev < 10)
    (h4 : T.maj < 10) (h5 : T.minr < 10) (h6 : T.rev < 10)
    (hgt : vlt T V = true) :
    idf_version_updater env exeE f V (some T) =
        ([], .error (.energyPlusVersionError f V T)) ∧
      upgrade exeE f V T = ([], .error (.energyPlusVersionError f V T)) := by
  have hne : T ≠ V := by
    intro h
    subst h
    rw [vlt_irrefl] at hgt
    cases hgt
  have hc1 : ¬(env.iddExists ∧ some T = some V) := fun h => hne (Option.some.inj h.2)
  have hc2 : ¬(¬env.iddExists ∧ V.maj < 8 ∧ some T = some V) :=
    fun h => hne (Option.some.inj h.2.2)
  have hcv : _check_version env f V (some T) =
      .error (.energyPlusVersionError f V T) := by
    unfold _check_version
    rw [if_neg hc1, if_neg hc2]
    simp only [Option.getD_some]
    rw [strTupleGt_eq_vlt V T h1 h2 h3 h4 h5 h6]
    rw [if_pos hgt]
  constructor
  · unfold idf_version_updater
    rw [hcv]
  · unfold upgrade
    rw [if_neg (fun h => hne h.symm), if_pos hgt]

/-- Witness for C6: migrating `9-0-0` down to `8-0-0`. -/
theorem downgrade_raises_version_error_witness :
    vlt ⟨8,0,0⟩ ⟨9,0,0⟩ = true ∧
      idf_version_updater ⟨true, ⟨9,2,0⟩⟩ (fun _ => true) ("in.idf") ⟨9,0,0⟩ (some ⟨8,0,0⟩) =
        ([], .error (.energyPlusVersionError ("in.idf") ⟨9,0,0⟩ ⟨8,0,0⟩)) ∧
      upgrade (fun _ => true) ("in.idf") ⟨9,0,0⟩ ⟨8,0,0⟩ =
        ([], .error (.energyPlusVersionError ("in.idf") ⟨9,0,0⟩ ⟨8,0,0⟩)) := by
  refine ⟨by decide, ?_, ?_⟩
  · exact (downgrade_raises_version_error ⟨true, ⟨9,2,0⟩⟩ (fun _ => true) ("in.idf")
      ⟨9,0,0⟩ ⟨8,0,0⟩ (by decide) (by decide) (by decide) (by decide) (by decide)
      (by decide) (by decide)).1
  · exact (downgrade_raises_version_error ⟨true, ⟨9,2,0⟩⟩ (fun _ => true) ("in.idf")
      ⟨9,0,0⟩ ⟨8,0,0⟩ (by decide) (by decide) (by decide) (by decide) (by decide)
      (by decide) (by decide)).2

theorem runGo_missing (exeExists : String → Bool) (f : String) (T : EpVer) :
    ∀ (steps : List (EpVer × EpVer)) (acc : List String),
      (∃ p ∈ steps, exeExists (transExecName p) = false) →
      ∃ p ∈ steps, exeExists (transExecName p) = false ∧
        (runTransitionsGo exeExists f T steps acc).2 =
          .error (.energyPlusProcessError (transExecName p)
            (missingMsg T (transExecName p)) f) := by
  intro steps
  induction steps with
  | nil =>
    intro acc h
    exact absurd h (by simp)
  | cons p rest ih =>
    intro acc h
    by_cases hex : exeExists (transExecName p) = true
    · have hrest : ∃ q ∈ rest, exeExists (transExecName q) = false := by
        rcases h with ⟨q, hq, hqf⟩
        rcases List.mem_cons.mp hq with rfl | hq'
        · rw [hex] at hqf
          cases hqf
        · exact ⟨q, hq', hqf⟩
      rcases ih (transExecName p :: acc) hrest with ⟨q, hq, hqf, hres⟩
      refine ⟨q, List.mem_cons_of_mem _ hq, hqf, ?_⟩
      rw [← hres]
      simp [runTransitionsGo, hex]
    · have hex' : exeExists (transExecName p) = false := by
        cases hh : exeExists (transExecName p)
        · rfl
        · exact absurd hh hex
      refine ⟨p, List.mem_cons_self p rest, hex', ?_⟩
      simp [runTransitionsGo, hex']

/-- C7.  If any transition executable on the selected migration path is
absent, the transition loop stops at the first missing step and raises
`EnergyPlusProcessError` whose `cmd` is that step's transition program and
whose `stderr` text (`missingMsg`) interpolates that exact program name;
the loop performs no retry (the outcome is final). -/
theorem missing_transition_program_raises (exeExists : String → Bool)
    (f : String) (V T : EpVer)
    (hmiss : ∃ p ∈ selectTransitions V T, exeExists (transExecName p) = false) :
    ∃ p ∈ selectTransitions V T, exeExists (transExecName p) = false ∧
      (_execute_transitions exeExists f T V).2 =
        .error (.energyPlusProcessError (transExecName p)
          (missingMsg T (transExecName p)) f) :=
  runGo_missing exeExists f T (selectTransitions V T) [] hmiss

/-- Witness for C7: the `9-0-0` step program missing on the
`8-9-0 -> 9-2-0` path. -/
theorem missing_transition_program_raises_witness :
    (∃ p ∈ selectTransitions ⟨8,9,0⟩ ⟨9,2,0⟩,
        (fun s => !(s == "Transition-V9-0-0-to-V9-1-0")) (transExecName p) = false) ∧
      ∃ p ∈ selectTransitions ⟨8,9,0⟩ ⟨9,2,0⟩,
        (fun s => !(s == "Transition-V9-0-0-to-V9-1-0")) (transExecName p) = false ∧
          (_execute_transitions (fun s => !(s == "Transition-V9-0-0-to-V9-1-0"))
              ("m.idf") ⟨9,2,0⟩ ⟨8,9,0⟩).2 =
            .error (.energyPlusProcessError (transExecName p)
              (missingMsg ⟨9,2,0⟩ (transExecName p)) ("m.idf")) :=
  ⟨by decide,
    missing_transition_program_raises (fun s => !(s == "Transition-V9-0-0-to-V9-1-0"))
      ("m.idf") ⟨8,9,0⟩ ⟨9,2,0⟩ (by decide)⟩

/-- C8.  When the EnergyPlus subprocess exits non-zero, `_run_exec`
raises `EnergyPlusProcessError` carrying the command line, the contents of
the `<output_prefix>out.err` log and the model name when that log exists;
when the log is missing it raises `subprocess.CalledProcessError` with the
return code and command; it never returns silently. -/
theorem run_exec_nonzero_exit_raises (env : RunEnv) (cmd : List String)
    (pfx idf : String) (hrc : env.returnCode ≠ 0) :
    (∀ c, env.files (pfx ++ "out.err") = some c →
        _run_exec_exit env cmd pfx idf = .energyPlusProcessError cmd c idf) ∧
      (env.files (pfx ++ "out.err") = Option.none →
        _run_exec_exit env cmd pfx idf = .calledProcessError env.returnCode cmd) ∧
      _run_exec_exit env cmd pfx idf ≠ .normal := by
  unfold _run_exec_exit
  rw [if_neg hrc]
  refine ⟨?_, ?_, ?_⟩
  · intro c hc
    rw [hc]
  · intro hc
    rw [hc]
  · cases hf : env.files (pfx ++ "out.err") <;> simp [hf]

/-- Witness for C8: return code 1 with an existing error log. -/
theorem run_exec_nonzero_exit_raises_witness :
    (1 : Int) ≠ 0 ∧
      _run_exec_exit ⟨1, fun _ => some ("EnergyPlus fatal error")⟩
          [("energyplus"), ("in.idf")] ("abc12") ("in.idf") =
        .energyPlusProcessError [("energyplus"), ("in.idf")]
          ("EnergyPlus fatal error") ("in.idf") :=
  ⟨by decide,
    (run_exec_nonzero_exit_raises ⟨1, fun _ => some ("EnergyPlus fatal error")⟩
      [("energyplus"), ("in.idf")] ("abc12") ("in.idf") (by decide)).1
      ("EnergyPlus fatal error") rfl⟩

theorem assignKey_congr (s1 s2 : List String) (t : String)
    (h : ∀ k, s1.contains k = s2.contains k) :
    assignKey s1 t = assignKey s2 t := by
  unfold assignKey
  rw [h t]

theorem assignedKeysAux_congr (l : List (String × Tbl)) :
    ∀ (s1 s2 : List String), (∀ k, s1.contains k = s2.contains k) →
      assignedKeysAux s1 l = assignedKeysAux s2 l := by
  induction l with
  | nil => intro s1 s2 _; rfl
  | cons t rest ih =>
    intro s1 s2 h
    simp only [assignedKeysAux]
    rw [assignKey_congr s1 s2 t.1 h]
    refine congrArg _ (ih _ _ ?_)
    intro k
    have h' := h k
    simp at h' ⊢
    simp [h']

theorem dictInsert_fresh {α : Type} (acc : List (String × α)) (k : String) (v : α)
    (h : k ∉ acc.map (fun p => p.1)) :
    dictInsert acc k v = acc ++ [(k, v)] := by
  induction acc with
  | nil => rfl
  | cons p rest ih =>
    simp only [List.map_cons, List.mem_cons, not_or] at h
    have hne : ¬p.1 = k := fun hh => h.1 hh.symm
    simp only [dictInsert, if_neg hne]
    rw [ih h.2]
    simp

theorem assignedKeysAux_length (l : List (String × Tbl)) :
    ∀ seen, (assignedKeysAux seen l).length = l.length := by
  induction l with
  | nil => intro seen; rfl
  | cons t rest ih =>
    intro seen
    simp [assignedKeysAux, ih]

theorem summary_fold_spec (l : List (String × Tbl)) :
    ∀ (acc : List (String × (List String × List (List String)))),
      (assignedKeysAux (acc.map (fun p => p.1)) l).Nodup →
      (∀ k ∈ assignedKeysAux (acc.map (fun p => p.1)) l,
          (acc.map (fun p => p.1)).contains k = false) →
      List.foldl summaryStep acc l =
        acc ++ (assignedKeysAux (acc.map (fun p => p.1)) l).zip
          (l.map (fun p => mkDf p.2)) := by
  induction l with
  | nil =>
    intro acc _ _
    simp [assignedKeysAux]
  | cons t rest ih =>
    intro acc hnd hfresh
    have hunfold : assignedKeysAux (acc.map (fun p => p.1)) (t :: rest) =
        assignKey (acc.map (fun p => p.1)) t.1 ::
          assignedKeysAux (assignKey (acc.map (fun p => p.1)) t.1 ::
            acc.map (fun p => p.1)) rest := rfl
    rw [hunfold] at hnd hfresh
    obtain ⟨hknot, hnd'⟩ := List.nodup_cons.mp hnd
    have hkf : (acc.map (fun p => p.1)).contains
        (assignKey (acc.map (fun p => p.1)) t.1) = false :=
      hfresh _ (List.mem_cons_self _ _)
    have hkf' : assignKey (acc.map (fun p => p.1)) t.1 ∉ acc.map (fun p => p.1) := by
      simpa using hkf
    have hstep : summaryStep acc t =
        acc ++ [(assignKey (acc.map (fun p => p.1)) t.1, mkDf t.2)] := by
      unfold summaryStep
      exact dictInsert_fresh _ _ _ hkf'
    have hmap : (acc ++ [(assignKey (acc.map (fun p => p.1)) t.1, mkDf t.2)]).map
        (fun p => p.1) =
        acc.map (fun p => p.1) ++ [assignKey (acc.map (fun p => p.1)) t.1] := by
      simp
    have hcongr : assignedKeysAux
        ((acc ++ [(assignKey (acc.map (fun p => p.1)) t.1, mkDf t.2)]).map (fun p => p.1))
        rest =
        assignedKeysAux
          (assignKey (acc.map (fun p => p.1)) t.1 :: acc.map (fun p => p.1)) rest := by
      rw [hmap]
      apply assignedKeysAux_congr
      intro k
      by_cases h1 : k = assignKey (acc.map (fun p => p.1)) t.1
      · subst h1
        simp
      · by_cases h2 : k ∈ acc.map (fun p => p.1) <;>
          simp [List.mem_append, h1, h2]
    have hfresh' : ∀ k ∈ assignedKeysAux
        (assignKey (acc.map (fun p => p.1)) t.1 :: acc.map (fun p => p.1)) rest,
        ((acc ++ [(assignKey (acc.map (fun p => p.1)) t.1, mkDf t.2)]).map
          (fun p => p.1)).contains k = false := by
      intro k hk
      rw [hmap]
      have hks : (acc.map (fun p => p.1)).contains k = false :=
        hfresh k (List.mem_cons_of_mem _ hk)
      have hks' : k ∉ acc.map (fun p => p.1) := by simpa using hks
      have hkne : k ≠ assignKey (acc.map (fun p => p.1)) t.1 :=
        fun hh => hknot (hh ▸ hk)
      simp [List.mem_append, hks', hkne]
    have hres := ih (acc ++ [(assignKey (acc.map (fun p => p.1)) t.1, mkDf t.2)])
      (hcongr ▸ hnd') (fun k hk => hfresh' k (hcongr ▸ hk))
    rw [List.foldl_cons, hstep, hres, hcongr, hunfold]
    simp

/-- C9 counterexample.  The claim states that
`summary_reports_to_dataframes` keeps a distinct entry for every input
pair, the disambiguation marker preventing any silent overwrite.  It is
false when a title occurs three times: the marker `"_"` is appended only
once, so the third occurrence is stored under the same `title + "_"` key
as the second and overwrites it.  On three tables titled `T`, the result
has two entries and the second table is gone. -/
theorem summary_reports_third_duplicate_overwrites :
    (summary_reports_to_dataframes
        [(("T"), [[("h")],[("1")]]), (("T"), [[("h")],[("2")]]),
         (("T"), [[("h")],[("3")]])]).length = 2 ∧
      ∀ p ∈ summary_reports_to_dataframes
          [(("T"), [[("h")],[("1")]]), (("T"), [[("h")],[("2")]]),
           (("T"), [[("h")],[("3")]])],
        p.2 ≠ mkDf [[("h")],[("2")]] := by decide

/-- C9 as amended.  Each input pair is stored under its assigned key
(`title`, or `title + "_"` when the title is already a dict key), and no
table is lost *provided* the assigned keys are pairwise distinct — e.g.
when every title occurs at most twice and no title collides with another
title's marker key.  Under that freshness condition the result is exactly
the key-indexed list of all input tables, one entry per input pair.  A
third occurrence of one title violates the condition and overwrites the
second's entry. -/
theorem summary_reports_lossless_when_keys_fresh (l : List (String × Tbl))
    (hnd : (assignedKeys l).Nodup) :
    summary_reports_to_dataframes l =
        (assignedKeys l).zip (l.map (fun p => mkDf p.2)) ∧
      (summary_reports_to_dataframes l).length = l.length := by
  have h := summary_fold_spec l [] hnd (fun k _ => rfl)
  have h' : summary_reports_to_dataframes l =
      (assignedKeys l).zip (l.map (fun p => mkDf p.2)) := by
    simpa [summary_reports_to_dataframes, assignedKeys] using h
  refine ⟨h', ?_⟩
  rw [h', List.length_zip]
  unfold assignedKeys
  rw [assignedKeysAux_length l [], List.length_map, min_self]

/-- Witness for the amended C9: titles `A`, `A`, `B` (one duplicate, fresh
marker key). -/
theorem summary_reports_lossless_when_keys_fresh_witness :
    (assignedKeys [(("A"), [[("h")],[("1")]]), (("A"), [[("h")],[("2")]]),
        (("B"), [[("h")],[("3")]])]).Nodup ∧
      summary_reports_to_dataframes
          [(("A"), [[("h")],[("1")]]), (("A"), [[("h")],[("2")]]),
           (("B"), [[("h")],[("3")]])] =
        (assignedKeys [(("A"), [[("h")],[("1")]]), (("A"), [[("h")],[("2")]]),
            (("B"), [[("h")],[("3")]])]).zip
          ([(("A"), [[("h")],[("1")]]), (("A"), [[("h")],[("2")]]),
            (("B"), [[("h")],[("3")]])].map (fun p => mkDf p.2)) :=
  ⟨by decide,
    (summary_reports_lossless_when_keys_fresh
      [(("A"), [[("h")],[("1")]]), (("A"), [[("h")],[("2")]]),
       (("B"), [[("h")],[("3")]])] (by decide)).1⟩

end Archetypal
